import Mathlib

/-
Verification development for the easy-hr frontend core:
the tiered LLM-response parser (ResultCard.tsx), the match-percentage
ranking transform (ResultCard.tsx), the upload batch tracker
(UploadResume.tsx) and the file-validation hook (use-file-upload, appended
to CandidateList.tsx).

JavaScript strings are modelled as lists of characters (type Str); each
regular expression of the source is hand-compiled into an executable
matcher that follows the JS backtracking semantics (leftmost match, greedy
and lazy quantifiers, character classes, negative lookahead) for the
specific pattern.  Floating-point display formatting (toFixed, formatBytes)
is outside the model: the ranking formula is verified exactly over the
rationals, and validation error strings are modelled as tagged messages
carrying the same data the source interpolates.
-/

set_option autoImplicit false

/-- JavaScript strings modelled as lists of characters. -/
abbrev Str := List Char

/-- Convert a Lean string literal into the character-list model. -/
def str (s : String) : Str := s.data

/-- JS whitespace class for the inputs considered (the ASCII part of the
regexp class backslash-s, which is also the set used by String.trim). -/
def wsChar (c : Char) : Bool :=
  c = ' ' || c = '\t' || c = '\n' || c = '\r' || c = '\x0b' || c = '\x0c'

/-- Character class A-Z of the source regexes. -/
def upperChar (c : Char) : Bool := 'A' ≤ c && c ≤ 'Z'

/-- Character class 0-9. -/
def digitChar (c : Char) : Bool := '0' ≤ c && c ≤ '9'

/-- Character class a-zA-Z. -/
def alphaChar (c : Char) : Bool :=
  ('a' ≤ c && c ≤ 'z') || ('A' ≤ c && c ≤ 'Z')

/-- JS String.prototype.includes: true when pat occurs as a contiguous
substring of s. -/
def hasSub (s pat : Str) : Bool :=
  if pat.isPrefixOf s then true
  else
    match s with
    | [] => false
    | _ :: t => hasSub t pat

/-- Number of positions of s at which pat occurs (overlapping counted). -/
def countSub (pat : Str) : Str → Nat
  | [] => if pat.isEmpty then 1 else 0
  | s@(_ :: t) => (if pat.isPrefixOf s then 1 else 0) + countSub pat t

/-- JS String.prototype.trim. -/
def trimJS (s : Str) : Str :=
  ((s.dropWhile wsChar).reverse.dropWhile wsChar).reverse

/-- JS String.prototype.split on a single separator character. -/
def splitOnChar (sep : Char) (s : Str) : List Str :=
  s.splitOn sep

/- ## Match Ranker (ResultCard.tsx, ResultCard component)

Source: `Match: {((1 / (1 + candidate.distance)) * 100).toFixed(0)}%`.
The numeric transform is modelled exactly over the rationals; the final
toFixed(0) display rounding is presentation-layer formatting and is not
part of the ranking formula. -/

/-- The match percentage computed from a candidate distance. -/
def matchPercentage (distance : ℚ) : ℚ := (1 / (1 + distance)) * 100

/- ## Upload Batch Tracker (UploadResume.tsx) -/

/-- Status values of a FileUploadItem. -/
inductive UStatus where
  | pending
  | uploading
  | completed
  | error
  deriving DecidableEq, Repr

/-- One tracked upload item: the id is the opaque identifier assigned at
intake, filename is file.name of the underlying File. -/
structure UploadItem where
  id : Nat
  filename : Str
  status : UStatus
  error : Option Str
  deriving DecidableEq, Repr

/-- One entry of the per-file outcome list of the combined upload reply. -/
structure UploadResult where
  status : Str
  filename : Str
  detail : Option Str
  deriving DecidableEq, Repr

/-- First phase of handleUpload: every item whose id is in the submitted
id set is marked uploading with its error cleared; all others are kept. -/
def markUploading (ids : List Nat) (items : List UploadItem) : List UploadItem :=
  items.map (fun item =>
    if ids.contains item.id then { item with status := .uploading, error := none }
    else item)

/-- Reply reconciliation for one item: the first result whose filename
equals the item filename decides the new status (ok gives completed,
anything else gives error) and the error field is set to the detail. -/
def applyResult (results : List UploadResult) (item : UploadItem) : UploadItem :=
  match results.find? (fun r => decide (r.filename = item.filename)) with
  | some r =>
      { item with
        status := if r.status = str "ok" then .completed else .error,
        error := r.detail }
  | none => item

/-- Reply-processing phase of handleUpload over the whole item set. -/
def processReply (results : List UploadResult) (items : List UploadItem) : List UploadItem :=
  items.map (applyResult results)

/-- Catch branch of handleUpload: on total transport failure every item of
the submitted id set is set to error carrying the failure message. -/
def markTransportError (ids : List Nat) (msg : Str) (items : List UploadItem) : List UploadItem :=
  items.map (fun item =>
    if ids.contains item.id then { item with status := .error, error := some msg }
    else item)

/-- Whether the success callback fires: results.some(r => r.status === "ok"). -/
def successFires (results : List UploadResult) : Bool :=
  results.any (fun r => decide (r.status = str "ok"))

/-- The failure notification: all-error replies give the fixed message,
otherwise a some-error reply lists the failed filenames joined by a comma
and space; no notification fires when nothing errored. -/
def failureMsg (results : List UploadResult) : Option Str :=
  if results.all (fun r => decide (r.status = str "error")) then
    some (str "All uploads failed.")
  else if results.any (fun r => decide (r.status = str "error")) then
    some (str "Some files failed to upload: " ++
      List.intercalate (str ", ")
        ((results.filter (fun r => decide (r.status = str "error"))).map (fun r => r.filename)))
  else none

/-- The batch submitted by retryUpload: a singleton carrying only the
retried item's id. -/
def retryBatch (uploadFile : UploadItem) : List Nat := [uploadFile.id]

/-- Full retry flow when the combined request returns an outcome list:
mark the singleton batch uploading, then reconcile the reply. -/
def retryFlowReply (uploadFile : UploadItem) (results : List UploadResult)
    (items : List UploadItem) : List UploadItem :=
  processReply results (markUploading (retryBatch uploadFile) items)

/-- Events of the tracker as they occur in UploadResume.tsx: intake
appends fresh pending items, submitMark is the uploading-marking phase of
handleUpload, reply is the outcome reconciliation, transportFail is the
catch branch.  A retry is submitMark on a singleton id followed by reply
or transportFail. -/
inductive TrackerEvent where
  | intake (newItems : List (Nat × Str))
  | submitMark (ids : List Nat)
  | reply (results : List UploadResult)
  | transportFail (ids : List Nat) (msg : Str)
  deriving Repr

/-- One tracker transition on the item set. -/
def trackerStep (items : List UploadItem) : TrackerEvent → List UploadItem
  | .intake newItems =>
      items ++ newItems.map (fun p => { id := p.1, filename := p.2, status := .pending, error := none })
  | .submitMark ids => markUploading ids items
  | .reply results => processReply results items
  | .transportFail ids msg => markTransportError ids msg items

/-- Run a sequence of tracker events from a given item set. -/
def trackerRunFrom (items : List UploadItem) (es : List TrackerEvent) : List UploadItem :=
  es.foldl trackerStep items

/-- Run a sequence of tracker events from the initial empty session. -/
def trackerRun (es : List TrackerEvent) : List UploadItem :=
  trackerRunFrom [] es

/-- Which events leave a given item untouched: intake only appends, the
id-keyed phases must not carry the item's id, and a reply must not carry
the item's filename. -/
def avoids (item : UploadItem) : TrackerEvent → Prop
  | .intake _ => True
  | .submitMark ids => item.id ∉ ids
  | .reply results => ∀ r ∈ results, ¬ r.filename = item.filename
  | .transportFail ids _ => item.id ∉ ids

/- ## File validation (useFileUpload hook, processFiles) -/

/-- The part of a browser File object the validation rules read. -/
structure JFile where
  name : Str
  size : Nat
  type : Str
  deriving DecidableEq, Repr

/-- The human-readable validation messages, modelled as tags carrying the
data the source interpolates into the message strings (the source renders
maxSize through formatBytes, a float-formatting display helper). -/
inductive ValidationMsg where
  | maxFilesMsg (maxFiles : Nat)
  | sizeMsg (name : Str) (maxSize : Nat)
  | typeMsg (name : Str) (accept : Str)
  deriving DecidableEq, Repr

/-- The file extension as computed by the source:
a dot followed by the last dot-separated component of the name, lowercased. -/
def fileExtension (name : Str) : Str :=
  '.' :: ((splitOnChar '.' name).getLastD []).map Char.toLower

/-- The accepted-type test: the accept string is split on commas and
trimmed; an entry starting with a dot is compared with the file extension,
an entry ending in slash-star is a type-prefix wildcard, and any other
entry must equal the file type exactly. -/
def acceptedBy (accept : Str) (f : JFile) : Bool :=
  let acceptedTypes := (splitOnChar ',' accept).map trimJS
  acceptedTypes.any (fun ty =>
    if ty.head? = some '.' then decide (fileExtension f.name = ty)
    else if (str "/*").reverse.isPrefixOf ty.reverse then
      (ty.take (ty.length - 2)).isPrefixOf f.type
    else decide (f.type = ty))

/-- The three validation rules of processFiles in source order: the
session count cap (existing plus already-accepted new files), the size
cap, and the accepted-type rule (skipped when accept is the star
wildcard).  Returns the error message of the first violated rule. -/
def validateFile (filesLen maxFiles maxSize : Nat) (accept : Str)
    (newFilesLen : Nat) (f : JFile) : Option ValidationMsg :=
  if maxFiles ≤ filesLen + newFilesLen then some (.maxFilesMsg maxFiles)
  else if maxSize < f.size then some (.sizeMsg f.name maxSize)
  else if accept ≠ str "*" && !acceptedBy accept f then some (.typeMsg f.name accept)
  else none

/-- The forEach loop of processFiles: each incoming file either appends an
error message or is appended to the accepted new-file list. -/
def processFilesGo (filesLen maxFiles maxSize : Nat) (accept : Str) :
    List JFile → List ValidationMsg → List JFile → List ValidationMsg × List JFile
  | [], errs, newFiles => (errs, newFiles)
  | f :: rest, errs, newFiles =>
      match validateFile filesLen maxFiles maxSize accept newFiles.length f with
      | some m => processFilesGo filesLen maxFiles maxSize accept rest (errs ++ [m]) newFiles
      | none => processFilesGo filesLen maxFiles maxSize accept rest errs (newFiles ++ [f])

/-- processFiles of the useFileUpload hook: validate every incoming file;
when any error was recorded the function returns early with the file set
unchanged (the accepted new files are discarded), otherwise the accepted
files are appended to the existing set.  Returns the new session error
list and the resulting file set. -/
def processFiles (files : List JFile) (maxFiles maxSize : Nat) (accept : Str)
    (incoming : List JFile) : List ValidationMsg × List JFile :=
  let res := processFilesGo files.length maxFiles maxSize accept incoming [] []
  if res.1 = [] then (res.1, files ++ res.2) else (res.1, files)

/- ## Tiered Response Parser (ResultCard.tsx)

Each regular expression of the source is compiled by hand into a
deterministic matcher that realises the JS backtracking search for that
specific pattern; the leftmost-match search of String.prototype.match is
realised by scanning every start position in order. -/

/-- Character class of the bold name regexes, upper case or whitespace. -/
def nameCls (c : Char) : Bool := upperChar c || wsChar c

/-- Negation of the newline test, the class matched by the JS dot. -/
def notNl (c : Char) : Bool := !(c = '\n')

/-- The class colon-or-whitespace of the skill and section field regexes. -/
def colonWs (c : Char) : Bool := c = ':' || wsChar c

/-- Leftmost-match search: try the position matcher at every start
position of the text in order and return the first success. -/
def scanOpt {α : Type} (f : Str → Option α) : Str → Option α
  | [] => f []
  | s@(_ :: t) =>
    match f s with
    | some r => some r
    | none => scanOpt f t

/-- One-position matcher for the bold all-caps name pattern: two stars, an
upper-case letter, a greedy nonempty run of upper-case or whitespace
characters, then two stars.  The greedy run cannot be shortened by
backtracking because no class character is a star.  Returns the capture
group. -/
def matchNameAt (s : Str) : Option Str :=
  match s with
  | a :: b :: c :: rest =>
    if a = '*' && b = '*' && upperChar c &&
        1 ≤ (rest.takeWhile nameCls).length &&
        (str "**").isPrefixOf (rest.dropWhile nameCls) then
      some (c :: rest.takeWhile nameCls)
    else none
  | _ => none

/-- The name extractor shared by tiers one and two: first match of the
bold all-caps name pattern anywhere in the text. -/
def extractName : Str → Option Str := scanOpt matchNameAt

/-- One-position matcher for the fallback name heuristic: an upper-case
letter followed by a greedy run of at least two upper-case or whitespace
characters.  Returns the capture group. -/
def matchFbNameAt (s : Str) : Option Str :=
  match s with
  | c :: rest =>
    if upperChar c && 2 ≤ (rest.takeWhile nameCls).length then
      some (c :: rest.takeWhile nameCls)
    else none
  | [] => none

/-- Fallback name extractor: first match of the loose name heuristic. -/
def extractFbName : Str → Option Str := scanOpt matchFbNameAt

/-- Backtracking step shared by the starred-class-then-group patterns:
when the greedy class run cannot be followed by a group character, the
run is shortened to end at its last group-admissible character.  Returns
the suffix of s at which the capture group starts. -/
def backtrackStart (cls bad : Char → Bool) (s : Str) : Option Str :=
  let run := s.takeWhile cls
  let j := (run.reverse.takeWhile bad).length
  if j < run.length then some (s.drop (run.length - j - 1)) else none

/-- Matcher for a greedy class star followed by a nonempty group of
characters outside bad: returns the suffix at which the group starts. -/
def groupStart (cls bad : Char → Bool) (s : Str) : Option Str :=
  match s.dropWhile cls with
  | c :: rest =>
    if bad c then backtrackStart cls bad s else some (c :: rest)
  | [] => backtrackStart cls bad s

/-- Greedy class star followed by a nonempty single-segment group: the
group is the maximal run of non-bad characters at the group start. -/
def groupSimple (cls bad : Char → Bool) (s : Str) : Option Str :=
  (groupStart cls bad s).map (fun t => t.takeWhile (fun c => !bad c))

/-- Length is not increased by dropWhile; used for termination below. -/
theorem dropWhile_len_le (p : Char → Bool) : ∀ l : Str, (l.dropWhile p).length ≤ l.length
  | [] => Nat.le_refl 0
  | c :: t => by
    rw [List.dropWhile_cons]
    split
    · exact Nat.le_succ_of_le (dropWhile_len_le p t)
    · exact Nat.le_refl _

/-- The continuation-line loop of the multi-line field groups: each
newline whose following text does not satisfy the stop lookahead is
consumed together with the rest of its line. -/
def groupMore (stop : Str → Bool) : Str → Str
  | [] => []
  | c :: rest =>
    if c = '\n' && !stop rest then
      ('\n' :: rest.takeWhile notNl) ++ groupMore stop (rest.dropWhile notNl)
    else []
termination_by s => s.length
decreasing_by
  simp only [List.length_cons]
  exact Nat.lt_succ_of_le (dropWhile_len_le notNl _)

/-- A multi-line field group: the rest of the current line followed by
every continuation line admitted by the stop lookahead. -/
def lineGroup (stop : Str → Bool) (s : Str) : Str :=
  s.takeWhile notNl ++ groupMore stop (s.dropWhile notNl)

/-- One position-try of a lazy dot-star search within the current line. -/
def lineScanStep {α : Type} (lit : Str) (k : Str → Option α) (s : Str) : Option α :=
  if lit.isPrefixOf s then k (s.drop lit.length) else none

/-- Lazy dot-star up to a literal within the current line: try the
literal at each position in order, never crossing a newline, and hand the
remainder to the continuation; on continuation failure resume the scan at
the next position. -/
def lineScan {α : Type} (lit : Str) (k : Str → Option α) : Str → Option α
  | [] => lineScanStep lit k []
  | s@(c :: t) =>
    match lineScanStep lit k s with
    | some r => some r
    | none => if c = '\n' then none else lineScan lit k t

/-- Scanner for the bold keyword field patterns: two stars, then lazily
within the line the keyword, then lazily within the line two stars, then
the pattern-specific remainder matcher. -/
def boldKeyScan {α : Type} (keyword : Str) (after : Str → Option α) : Str → Option α :=
  scanOpt (fun suf =>
    if (str "**").isPrefixOf suf then
      lineScan keyword (lineScan (str "**") after) (suf.drop 2)
    else none)

/-- Remainder matcher of the indented field patterns: a lazy dot-star
before the group can only be empty, so the group must start immediately
with a non-newline character. -/
def afterDotLazy (stop : Str → Bool) (r2 : Str) : Option Str :=
  match r2 with
  | [] => none
  | c :: _ => if c = '\n' then none else some (lineGroup stop r2)

/-- Remainder matcher of the section field patterns: a greedy
colon-or-whitespace star, then the multi-line group. -/
def afterColonWs (stop : Str → Bool) (r2 : Str) : Option Str :=
  (groupStart colonWs (fun c => c = '\n') r2).map (lineGroup stop)

/-- Lookahead stopping the indented education group: a bold marker. -/
def stopEduInd (rest : Str) : Bool := (str "**").isPrefixOf rest

/-- Lookahead stopping the indented experience group: a bold marker or
the additional-info sentence opener. -/
def stopExpInd (rest : Str) : Bool :=
  (str "**").isPrefixOf rest || (str "This candidate").isPrefixOf rest

/-- Lookahead stopping the section education group: a bold marker
followed by an upper-case letter. -/
def stopEduSec (rest : Str) : Bool :=
  match rest with
  | a :: b :: c :: _ => a = '*' && b = '*' && upperChar c
  | _ => false

/-- Lookahead stopping the section experience group: a bold upper-case
header or the bold skills label. -/
def stopExpSec (rest : Str) : Bool :=
  stopEduSec rest || (str "**Skills").isPrefixOf rest

/-- Bold label followed by colon, whitespace star and a line group, as in
the email and phone field patterns. -/
def labelLineScan (label : Str) : Str → Option Str :=
  scanOpt (fun suf =>
    if label.isPrefixOf suf then
      groupSimple wsChar (fun c => c = '\n') (suf.drop label.length)
    else none)

/-- The CGPA pattern: the literal, a greedy run of non-digits, then a
digit run optionally followed by a dot and further digits. -/
def cgpaScan : Str → Option Str :=
  scanOpt (fun suf =>
    if (str "CGPA").isPrefixOf suf then
      match (suf.drop 4).dropWhile (fun c => !digitChar c) with
      | [] => none
      | r@(_ :: _) =>
        let ds := r.takeWhile digitChar
        match r.drop ds.length with
        | '.' :: r2 => some (ds ++ '.' :: r2.takeWhile digitChar)
        | _ => some ds
    else none)

/-- The percentage pattern: a maximal digit run immediately followed by a
percent sign; returns the digit group. -/
def pctScan : Str → Option Str :=
  scanOpt (fun suf =>
    let ds := suf.takeWhile digitChar
    if ds.isEmpty then none
    else
      match suf.drop ds.length with
      | '%' :: _ => some ds
      | _ => none)

/-- The bold skills label pattern shared by tiers one and two. -/
def skillsScanBold : Str → Option Str :=
  scanOpt (fun suf =>
    if (str "**Skills**").isPrefixOf suf then
      groupSimple colonWs (fun c => c = '\n') (suf.drop (str "**Skills**").length)
    else none)

/-- The fallback skills pattern: the bare keyword, colon-or-whitespace
star, then a group of characters that are neither newline nor dot. -/
def fbSkillsScan : Str → Option Str :=
  scanOpt (fun suf =>
    if (str "Skills").isPrefixOf suf then
      groupSimple colonWs (fun c => c = '\n' || c = '.') (suf.drop (str "Skills").length)
    else none)

/-- The indented additional-info sentence: the literal opener, a greedy
run of non-dots, then a dot; returns the whole match. -/
def thisCandScan : Str → Option Str :=
  scanOpt (fun suf =>
    if (str "This candidate has").isPrefixOf suf then
      let rest := suf.drop (str "This candidate has").length
      let nd := rest.takeWhile (fun c => !(c = '.'))
      match rest.drop nd.length with
      | '.' :: _ => some ((str "This candidate has") ++ nd ++ ['.'])
      | _ => none
    else none)

/-- Local-part character class of the fallback email pattern. -/
def localCls (c : Char) : Bool :=
  alphaChar c || digitChar c || c = '.' || c = '_' || c = '%' || c = '+' || c = '-'

/-- Domain character class of the fallback email pattern. -/
def domCls (c : Char) : Bool :=
  alphaChar c || digitChar c || c = '.' || c = '-'

/-- One-position matcher for the fallback email pattern: a nonempty local
part, an at sign, a domain run, a dot placed by backtracking at the last
position admitting at least two following letters, then the greedy
top-level-domain letter run. -/
def matchEmailAt (s : Str) : Option Str :=
  let locpart := s.takeWhile localCls
  if locpart.isEmpty then none
  else
    match s.drop locpart.length with
    | '@' :: r2 =>
      let dom := r2.takeWhile domCls
      if dom.isEmpty then none
      else
        let good := (List.range dom.length).filter (fun k =>
          decide (1 ≤ k) && decide (dom.getD k ' ' = '.') &&
          decide (2 ≤ ((dom.drop (k+1)).takeWhile alphaChar).length))
        match good.getLast? with
        | some k =>
            some (locpart ++ '@' :: (dom.take k ++ '.' :: (dom.drop (k+1)).takeWhile alphaChar))
        | none => none
    | _ => none

/-- Fallback email extractor: first match of the email pattern. -/
def extractEmailFb : Str → Option Str := scanOpt matchEmailAt

/-- The anchored replace removing one leading dash and the whitespace
after it, applied to already-trimmed text. -/
def stripLeadingDash (s : Str) : Str :=
  match s with
  | '-' :: r => r.dropWhile wsChar
  | _ => s

/-- The record shape constructed by all three parse functions. -/
structure CandidateData where
  name : Str
  email : Str
  phone : Str
  cgpa : Str
  percentage : Str
  education : Str
  experience : Str
  skills : List Str
  additionalInfo : Str
  deriving DecidableEq, Repr

/-- Comma splitting, trimming and blank removal of a skills group. -/
def skillList (g : Str) : List Str :=
  ((splitOnChar ',' g).map trimJS).filter (fun x => !x.isEmpty)

/-- parseIndentedFormat of ResultCard.tsx: the whole blob describes one
candidate; every field falls back to empty on a failed match. -/
def parseIndentedFormat (response : Str) : CandidateData :=
  { name :=
      match extractName response with
      | some g => trimJS g
      | none => []
    email :=
      match labelLineScan (str "**Email**:") response with
      | some g => trimJS g
      | none => []
    phone :=
      match labelLineScan (str "**Phone**:") response with
      | some g => trimJS g
      | none => []
    cgpa := (cgpaScan response).getD []
    percentage :=
      match pctScan response with
      | some ds => ds ++ ['%']
      | none => []
    education :=
      match boldKeyScan (str "Education") (afterDotLazy stopEduInd) response with
      | some g => stripLeadingDash (trimJS g)
      | none => []
    experience :=
      match boldKeyScan (str "Experience") (afterDotLazy stopExpInd) response with
      | some g => stripLeadingDash (trimJS g)
      | none => []
    skills :=
      match skillsScanBold response with
      | some g => skillList g
      | none => []
    additionalInfo := (thisCandScan response).getD [] }

/-- The additional-info assembly of parseCandidateSection: lines that are
nonblank and carry no bold marker, joined by spaces and trimmed. -/
def sectionAdditionalInfo (sec : Str) : Str :=
  trimJS (List.intercalate (str " ")
    ((splitOnChar '\n' sec).filter (fun line => !(trimJS line).isEmpty && !hasSub line (str "**"))))

/-- parseCandidateSection of ResultCard.tsx: one bold-header section. -/
def parseCandidateSection (sec : Str) : CandidateData :=
  { name :=
      match extractName sec with
      | some g => trimJS g
      | none => []
    email :=
      match labelLineScan (str "**Email**:") sec with
      | some g => trimJS g
      | none => []
    phone :=
      match labelLineScan (str "**Phone**:") sec with
      | some g => trimJS g
      | none => []
    cgpa := (cgpaScan sec).getD []
    percentage :=
      match pctScan sec with
      | some ds => ds ++ ['%']
      | none => []
    education :=
      match boldKeyScan (str "Education") (afterColonWs stopEduSec) sec with
      | some g => trimJS g
      | none => []
    experience :=
      match boldKeyScan (str "Experience") (afterColonWs stopExpSec) sec with
      | some g => trimJS g
      | none => []
    skills :=
      match skillsScanBold sec with
      | some g => skillList g
      | none => []
    additionalInfo := sectionAdditionalInfo sec }

/-- parseFallbackFormat of ResultCard.tsx: the whole blob is one
candidate, the name defaults to the placeholder, and the original text is
kept verbatim as additional info. -/
def parseFallbackFormat (response : Str) : CandidateData :=
  { name :=
      match extractFbName response with
      | some g => trimJS g
      | none => str "Candidate"
    email := (extractEmailFb response).getD []
    phone := []
    cgpa := []
    percentage := []
    education := []
    experience := []
    skills :=
      match fbSkillsScan response with
      | some g => skillList g
      | none => []
    additionalInfo := response }

/-- The zero-width split of tier two: a new segment starts before every
position after the first at which the bold all-caps header matches. -/
def splitSecAux : Str → Str → List Str
  | acc, [] => [acc.reverse]
  | acc, s@(c :: t) =>
    if !acc.isEmpty && (matchNameAt s).isSome then
      acc.reverse :: splitSecAux [c] t
    else splitSecAux (c :: acc) t

/-- The section split of tier two. -/
def splitSections (s : Str) : List Str := splitSecAux [] s

/-- parseLLMResponse of ResultCard.tsx: the tier selection and the
name-gated record collection. -/
def parseLLMResponse (response : Str) : List CandidateData :=
  if hasSub response (str "- **") && hasSub response (str "**:") then
    let candidate := parseIndentedFormat response
    if candidate.name.isEmpty then [] else [candidate]
  else if hasSub response (str "**") && hasSub response (str "**") then
    (splitSections response).filterMap (fun sec =>
      if (trimJS sec).isEmpty then none
      else
        let candidate := parseCandidateSection sec
        if candidate.name.isEmpty then none else some candidate)
  else
    let candidate := parseFallbackFormat response
    if candidate.name.isEmpty then [] else [candidate]

/- ## Helper lemmas -/

/-- Boolean membership agrees with membership for id lists. -/
theorem contains_mem {l : List Nat} {a : Nat} : l.contains a = true ↔ a ∈ l :=
  List.elem_iff

/-- A successful leftmost scan succeeds at some suffix of the text. -/
theorem scanOpt_some {α : Type} (f : Str → Option α) :
    ∀ {s : Str} {r : α}, scanOpt f s = some r → ∃ t, t <:+ s ∧ f t = some r := by
  intro s
  induction s with
  | nil =>
    intro r h
    rw [scanOpt] at h
    exact ⟨[], List.suffix_rfl, h⟩
  | cons a t ih =>
    intro r h
    rw [scanOpt] at h
    cases hf : f (a :: t) with
    | some r2 =>
      rw [hf] at h
      exact ⟨a :: t, List.suffix_rfl, by rw [hf]; exact h⟩
    | none =>
      rw [hf] at h
      obtain ⟨u, hsuf, hfu⟩ := ih h
      exact ⟨u, hsuf.trans (List.suffix_cons a t), hfu⟩

/-- A position where the bold name pattern matches carries a star. -/
theorem matchNameAt_star {s g : Str} (h : matchNameAt s = some g) : '*' ∈ s := by
  unfold matchNameAt at h
  split at h
  · rename_i a b c rest
    split at h
    · rename_i hcond
      simp only [Bool.and_eq_true, decide_eq_true_eq] at hcond
      rw [hcond.1.1.1.1]
      exact List.mem_cons_self _ _
    · exact absurd h (by simp)
  · exact absurd h (by simp)

/-- A text where the shared name extractor succeeds carries a star. -/
theorem extractName_star {s g : Str} (h : extractName s = some g) : '*' ∈ s := by
  obtain ⟨t, hsuf, hft⟩ := scanOpt_some matchNameAt h
  exact hsuf.subset (matchNameAt_star hft)

/-- A successful fallback name position match captures a group starting
with an upper-case letter. -/
theorem matchFbNameAt_shape {s g : Str} (h : matchFbNameAt s = some g) :
    ∃ c rest, g = c :: rest ∧ upperChar c = true := by
  cases s with
  | nil => exact absurd h (by simp [matchFbNameAt])
  | cons c rest =>
    have h2 : (if (upperChar c && decide (2 ≤ (rest.takeWhile nameCls).length)) = true then
        some (c :: rest.takeWhile nameCls) else (none : Option Str)) = some g := h
    by_cases hcond : (upperChar c && decide (2 ≤ (rest.takeWhile nameCls).length)) = true
    · rw [if_pos hcond] at h2
      simp only [Bool.and_eq_true] at hcond
      exact ⟨c, rest.takeWhile nameCls, (Option.some_inj.mp h2).symm, hcond.1⟩
    · rw [if_neg hcond] at h2
      exact absurd h2 (by simp)

/-- The fallback name capture starts with an upper-case letter. -/
theorem extractFbName_upper {s g : Str} (h : extractFbName s = some g) :
    ∃ c rest, g = c :: rest ∧ upperChar c = true := by
  obtain ⟨t, _, hft⟩ := scanOpt_some matchFbNameAt h
  exact matchFbNameAt_shape hft

/-- A member outside the dropped class survives dropWhile. -/
theorem mem_dropWhile_keep {p : Char → Bool} {c : Char} (hc : p c = false) :
    ∀ {s : Str}, c ∈ s → c ∈ s.dropWhile p := by
  intro s
  induction s with
  | nil => intro h; exact absurd h (List.not_mem_nil c)
  | cons a t ih =>
    intro h
    rw [List.dropWhile_cons]
    by_cases hpa : p a = true
    · rw [if_pos hpa]
      rcases List.mem_cons.mp h with rfl | hmem
      · rw [hc] at hpa; exact absurd hpa (by simp)
      · exact ih hmem
    · rw [if_neg hpa]
      exact h

/-- A text containing a non-whitespace character does not trim to empty. -/
theorem trim_ne_of_mem {c : Char} {s : Str} (hw : wsChar c = false) (hm : c ∈ s) :
    (trimJS s).isEmpty = false := by
  unfold trimJS
  have h1 := mem_dropWhile_keep hw hm
  have h2 : c ∈ (s.dropWhile wsChar).reverse := List.mem_reverse.mpr h1
  have h3 := mem_dropWhile_keep hw h2
  have h4 : c ∈ ((s.dropWhile wsChar).reverse.dropWhile wsChar).reverse :=
    List.mem_reverse.mpr h3
  exact List.isEmpty_eq_false.mpr (List.ne_nil_of_mem h4)

/-- Upper-case letters are not whitespace. -/
theorem upper_not_ws {c : Char} (h : upperChar c = true) : wsChar c = false := by
  cases hws : wsChar c with
  | false => rfl
  | true =>
    exfalso
    unfold wsChar at hws
    simp only [Bool.or_eq_true, decide_eq_true_eq] at hws
    rcases hws with ((((rfl | rfl) | rfl) | rfl) | rfl) | rfl <;> exact absurd h (by decide)

/-- A section whose extracted name is nonempty does not trim to empty. -/
theorem pcs_name_trim {sec : Str} (h : (parseCandidateSection sec).name.isEmpty = false) :
    (trimJS sec).isEmpty = false := by
  have hex : ∃ g, extractName sec = some g := by
    simp only [parseCandidateSection] at h
    cases hx : extractName sec with
    | some g => exact ⟨g, rfl⟩
    | none => rw [hx] at h; exact absurd h (by simp)
  obtain ⟨g, hg⟩ := hex
  exact trim_ne_of_mem (by decide : wsChar '*' = false) (extractName_star hg)

/- ## Claim theorems -/

/-- C3: for every candidate with non-negative distance d, the match
percentage equals 100 times 1/(1+d); it is strictly decreasing in d,
bounded in the half-open interval (0, 100], and equals 100 exactly when
d is 0; in particular distance 0 maps to 100, 1 to 50 and 4 to 20. -/
theorem match_percentage_spec (d d2 : ℚ) (hd : 0 ≤ d) (hd2 : 0 ≤ d2) :
    (d < d2 → matchPercentage d2 < matchPercentage d) ∧
    0 < matchPercentage d ∧ matchPercentage d ≤ 100 ∧
    (matchPercentage d = 100 ↔ d = 0) ∧
    matchPercentage 0 = 100 ∧ matchPercentage 1 = 50 ∧ matchPercentage 4 = 20 := by
  have h1 : (0 : ℚ) < 1 + d := by linarith
  have h12 : (0 : ℚ) < 1 + d2 := by linarith
  refine ⟨?_, ?_, ?_, ?_, ?_, ?_, ?_⟩
  · intro hlt
    unfold matchPercentage
    have hdiv : 1 / (1 + d2) < 1 / (1 + d) :=
      one_div_lt_one_div_of_lt h1 (by linarith)
    nlinarith
  · unfold matchPercentage
    positivity
  · unfold matchPercentage
    have hdiv : 1 / (1 + d) ≤ 1 := by
      rw [div_le_one h1]
      linarith
    nlinarith
  · unfold matchPercentage
    constructor
    · intro h
      field_simp at h
      linarith
    · intro h
      rw [h]
      norm_num
  · norm_num [matchPercentage]
  · norm_num [matchPercentage]
  · norm_num [matchPercentage]

/-- Witness for C3 at the concrete distances 1 and 2. -/
theorem match_percentage_spec_witness :
    matchPercentage 2 < matchPercentage 1 ∧ matchPercentage 1 = 50 :=
  ⟨(match_percentage_spec 1 2 (by norm_num) (by norm_num)).1 (by norm_num),
   (match_percentage_spec 1 2 (by norm_num) (by norm_num)).2.2.2.2.2.1⟩

/-- C4: when the combined request fails outright, reply reconciliation is
skipped and every item whose id is in the submitted set, and only those
items, is set to status error carrying the transport failure message. -/
theorem transport_failure_marks_submitted (ids : List Nat) (msg : Str)
    (items : List UploadItem) (i : Nat) (item : UploadItem)
    (h : items[i]? = some item) :
    (item.id ∈ ids → (markTransportError ids msg items)[i]? =
      some { item with status := .error, error := some msg }) ∧
    (item.id ∉ ids → (markTransportError ids msg items)[i]? = some item) := by
  unfold markTransportError
  rw [List.getElem?_map, h, Option.map_some']
  constructor
  · intro hin
    rw [if_pos (contains_mem.mpr hin)]
  · intro hnin
    rw [if_neg (fun hcc => hnin (contains_mem.mp hcc))]

/-- Witness for C4: the single submitted item is marked error with the
transport message. -/
theorem transport_failure_marks_submitted_witness :
    (markTransportError [1] (str "boom")
      [{ id := 1, filename := str "a", status := .uploading, error := none }])[0]? =
      some { id := 1, filename := str "a", status := .error, error := some (str "boom") } := by
  have h := transport_failure_marks_submitted [1] (str "boom")
    [{ id := 1, filename := str "a", status := .uploading, error := none }] 0
    { id := 1, filename := str "a", status := .uploading, error := none } rfl
  exact h.1 (by decide)

/-- C5: the success callback fires exactly when some outcome is ok; a
failure notification fires whenever some outcome is error, and when not
every outcome is an error it lists the failed filenames; when ok and
error outcomes coexist both notifications fire. -/
theorem reply_callbacks_spec (results : List UploadResult) :
    (successFires results = true ↔ ∃ r ∈ results, r.status = str "ok") ∧
    ((∃ r ∈ results, r.status = str "error") → (failureMsg results).isSome = true) ∧
    ((∃ r ∈ results, r.status = str "error") ∧ (∃ r ∈ results, ¬ r.status = str "error") →
      failureMsg results = some (str "Some files failed to upload: " ++
        List.intercalate (str ", ")
          ((results.filter (fun r => decide (r.status = str "error"))).map
            (fun r => r.filename)))) ∧
    (((∃ r ∈ results, r.status = str "ok") ∧ (∃ r ∈ results, r.status = str "error")) →
      successFires results = true ∧ (failureMsg results).isSome = true) := by
  have hsucc : successFires results = true ↔ ∃ r ∈ results, r.status = str "ok" := by
    unfold successFires
    rw [List.any_eq_true]
    simp
  have hfail : (∃ r ∈ results, r.status = str "error") → (failureMsg results).isSome = true := by
    rintro ⟨r, hr, hst⟩
    unfold failureMsg
    by_cases hall : results.all (fun r => decide (r.status = str "error")) = true
    · simp [hall]
    · have hany : results.any (fun r => decide (r.status = str "error")) = true :=
        List.any_eq_true.mpr ⟨r, hr, by simp [hst]⟩
      simp [hall, hany]
  refine ⟨hsucc, hfail, ?_, ?_⟩
  · rintro ⟨⟨r, hr, hst⟩, ⟨r2, hr2, hst2⟩⟩
    have hall : results.all (fun r => decide (r.status = str "error")) = false := by
      cases hcc : results.all (fun r => decide (r.status = str "error")) with
      | false => rfl
      | true => exact absurd (by simpa using List.all_eq_true.mp hcc r2 hr2) hst2
    have hany : results.any (fun r => decide (r.status = str "error")) = true :=
      List.any_eq_true.mpr ⟨r, hr, by simp [hst]⟩
    unfold failureMsg
    simp [hall, hany]
  · rintro ⟨hok, herr⟩
    exact ⟨hsucc.mpr hok, hfail herr⟩

/-- Witness for C5 on a mixed two-outcome reply: both notifications fire. -/
theorem reply_callbacks_spec_witness :
    successFires [{ status := str "ok", filename := str "a", detail := none },
      { status := str "error", filename := str "b", detail := some (str "x") }] = true ∧
    (failureMsg [{ status := str "ok", filename := str "a", detail := none },
      { status := str "error", filename := str "b", detail := some (str "x") }]).isSome = true := by
  refine (reply_callbacks_spec _).2.2.2
    ⟨⟨{ status := str "ok", filename := str "a", detail := none }, ?_, rfl⟩,
     ⟨{ status := str "error", filename := str "b", detail := some (str "x") }, ?_, rfl⟩⟩
  · exact List.mem_cons_self _ _
  · exact List.mem_cons_of_mem _ (List.mem_cons_self _ _)

/-- C10: a submitted item whose filename matches no entry of the reply is
left exactly as the uploading-marking phase produced it: it stays in
uploading and its fields are not touched by reply processing. -/
theorem unmatched_item_stays_uploading (ids : List Nat) (results : List UploadResult)
    (items : List UploadItem) (i : Nat) (item : UploadItem)
    (h : items[i]? = some item) (hin : item.id ∈ ids)
    (hnm : ∀ r ∈ results, ¬ r.filename = item.filename) :
    (processReply results (markUploading ids items))[i]? =
      some { item with status := .uploading, error := none } := by
  unfold processReply markUploading
  rw [List.getElem?_map, List.getElem?_map, h]
  have hc : ids.contains item.id = true := contains_mem.mpr hin
  simp only [Option.map_some', hc, if_true]
  unfold applyResult
  have hfind : results.find?
      (fun r => decide (r.filename =
        ({ item with status := UStatus.uploading, error := none } : UploadItem).filename)) = none := by
    rw [List.find?_eq_none]
    intro r hr
    simpa using hnm r hr
  rw [hfind]

/-- Witness for C10: one submitted item, a reply naming a different file,
and the item still shown uploading. -/
theorem unmatched_item_stays_uploading_witness :
    (processReply [{ status := str "ok", filename := str "z", detail := none }]
      (markUploading [1]
        [{ id := 1, filename := str "a", status := .pending, error := none }]))[0]? =
      some { id := 1, filename := str "a", status := .uploading, error := none } := by
  have h := unmatched_item_stays_uploading [1]
    [{ status := str "ok", filename := str "z", detail := none }]
    [{ id := 1, filename := str "a", status := .pending, error := none }] 0
    { id := 1, filename := str "a", status := .pending, error := none } rfl (by decide)
    (by intro r hr; simp at hr; rw [hr]; decide)
  exact h

/-- C8 counterexample: with two items sharing the filename a.pdf, the
retry of item 2 also rewrites item 1, whose status moves from error to
completed and whose error field is cleared, refuting the claim that every
other item is unchanged by a retry. -/
theorem retry_collision_cex :
    (retryFlowReply
      { id := 2, filename := str "a.pdf", status := .error, error := some (str "y") }
      [{ status := str "ok", filename := str "a.pdf", detail := none }]
      [{ id := 1, filename := str "a.pdf", status := .error, error := some (str "x") },
       { id := 2, filename := str "a.pdf", status := .error, error := some (str "y") }])[0]? =
      some { id := 1, filename := str "a.pdf", status := .completed, error := none } ∧
    ¬ ({ id := 1, filename := str "a.pdf", status := .completed, error := none } : UploadItem) =
      { id := 1, filename := str "a.pdf", status := .error, error := some (str "x") } := by
  constructor
  · rfl
  · decide

/-- C8 amended: retrying submits a singleton batch carrying only the
retried item's id; every other item whose filename appears in no reply
outcome is unchanged, while the retried item passes through uploading and
is then settled by the reply; an item sharing the retried filename is
also rewritten by the reply, so the frame holds only under the
no-collision hypothesis. -/
theorem retry_frame_spec (uploadFile : UploadItem) (results : List UploadResult)
    (items : List UploadItem) (i : Nat) (item : UploadItem)
    (h : items[i]? = some item) :
    (¬ item.id = uploadFile.id → (∀ r ∈ results, ¬ r.filename = item.filename) →
      (retryFlowReply uploadFile results items)[i]? = some item) ∧
    (item.id = uploadFile.id →
      (retryFlowReply uploadFile results items)[i]? =
        some (applyResult results { item with status := .uploading, error := none })) := by
  unfold retryFlowReply processReply markUploading retryBatch
  rw [List.getElem?_map, List.getElem?_map, h, Option.map_some', Option.map_some']
  constructor
  · intro hid hnm
    rw [if_neg (fun hcc => hid (by simpa using contains_mem.mp hcc))]
    unfold applyResult
    rw [List.find?_eq_none.mpr (fun r hr => by simpa using hnm r hr)]
  · intro hid
    rw [if_pos (contains_mem.mpr (by simp [hid]))]

/-- Witness for C8 amended: retrying item 1 leaves the differently named
item 2 untouched. -/
theorem retry_frame_spec_witness :
    (retryFlowReply
      { id := 1, filename := str "a.pdf", status := .error, error := some (str "x") }
      [{ status := str "ok", filename := str "a.pdf", detail := none }]
      [{ id := 1, filename := str "a.pdf", status := .error, error := some (str "x") },
       { id := 2, filename := str "b.pdf", status := .completed, error := none }])[1]? =
      some { id := 2, filename := str "b.pdf", status := .completed, error := none } := by
  have h := retry_frame_spec
    { id := 1, filename := str "a.pdf", status := .error, error := some (str "x") }
    [{ status := str "ok", filename := str "a.pdf", detail := none }]
    [{ id := 1, filename := str "a.pdf", status := .error, error := some (str "x") },
     { id := 2, filename := str "b.pdf", status := .completed, error := none }] 1
    { id := 2, filename := str "b.pdf", status := .completed, error := none } rfl
  exact h.1 (by decide) (by intro r hr; simp at hr; rw [hr]; decide)

/-- First tracker trace: one file a.pdf is taken in, submitted and
acknowledged ok, so item 1 is completed. -/
def collisionTrace1 : List TrackerEvent :=
  [.intake [(1, str "a.pdf")], .submitMark [1],
   .reply [{ status := str "ok", filename := str "a.pdf", detail := none }]]

/-- Second tracker trace: after the first, a second file also named a.pdf
is taken in and submitted, and its reply reports an error. -/
def collisionTrace2 : List TrackerEvent :=
  collisionTrace1 ++
  [.intake [(2, str "a.pdf")], .submitMark [2],
   .reply [{ status := str "error", filename := str "a.pdf", detail := some (str "dup") }]]

/-- C9 counterexample: along a reachable event sequence (intake, submit,
reply, intake, submit, reply) item 1 first reaches completed and later
moves to error, because the second reply is matched back by filename and
both items are named a.pdf; this refutes the claim that no item ever
leaves completed. -/
theorem completed_not_terminal_cex :
    ((trackerRun collisionTrace1)[0]?).map UploadItem.status = some UStatus.completed ∧
    ((trackerRun collisionTrace2)[0]?).map UploadItem.status = some UStatus.error := by
  constructor
  · rfl
  · rfl

/-- One tracker event that avoids an item leaves that item unchanged. -/
theorem trackerStep_avoids (items : List UploadItem) (e : TrackerEvent) (i : Nat)
    (item : UploadItem) (h : items[i]? = some item) (hav : avoids item e) :
    (trackerStep items e)[i]? = some item := by
  cases e with
  | intake newItems =>
    unfold trackerStep
    have hlt : i < items.length := (List.getElem?_eq_some.mp h).1
    rw [List.getElem?_append, if_pos hlt]
    exact h
  | submitMark ids =>
    unfold trackerStep markUploading
    rw [List.getElem?_map, h, Option.map_some']
    rw [if_neg (fun hcc => hav (contains_mem.mp hcc))]
  | reply results =>
    unfold trackerStep processReply
    rw [List.getElem?_map, h, Option.map_some']
    unfold applyResult
    rw [List.find?_eq_none.mpr (fun r hr => by simpa using hav r hr)]
  | transportFail ids msg =>
    unfold trackerStep markTransportError
    rw [List.getElem?_map, h, Option.map_some']
    rw [if_neg (fun hcc => hav (contains_mem.mp hcc))]

/-- C9 amended: an item in completed keeps its whole state, and in
particular stays completed, under every event sequence in which no
submission or transport-failure event carries its id and no reply carries
an outcome with its filename; a later reply naming the same filename (a
collision with a newly taken-in file of the same name) can move it out of
completed. -/
theorem completed_frame_spec (es : List TrackerEvent) (items : List UploadItem)
    (i : Nat) (item : UploadItem) (h : items[i]? = some item)
    (hcomp : item.status = .completed)
    (hav : ∀ e ∈ es, avoids item e) :
    (trackerRunFrom items es)[i]? = some item ∧
    ((trackerRunFrom items es)[i]?).map UploadItem.status = some UStatus.completed := by
  have main : ∀ (es : List TrackerEvent) (items : List UploadItem),
      items[i]? = some item → (∀ e ∈ es, avoids item e) →
      (trackerRunFrom items es)[i]? = some item := by
    intro es
    induction es with
    | nil => intro items h _; exact h
    | cons e t ih =>
      intro items h hav
      unfold trackerRunFrom
      rw [List.foldl_cons]
      exact ih (trackerStep items e)
        (trackerStep_avoids items e i item h (hav e (List.mem_cons_self e t)))
        (fun e2 he2 => hav e2 (List.mem_cons_of_mem e he2))
  refine ⟨main es items h hav, ?_⟩
  rw [main es items h hav, Option.map_some', hcomp]

/-- Witness for C9 amended: a completed item survives an unrelated
submission and reply untouched. -/
theorem completed_frame_spec_witness :
    (trackerRunFrom
      [{ id := 1, filename := str "a.pdf", status := .completed, error := none }]
      [.submitMark [2],
       .reply [{ status := str "error", filename := str "b.pdf", detail := none }]])[0]? =
      some { id := 1, filename := str "a.pdf", status := .completed, error := none } := by
  have h := completed_frame_spec
    [.submitMark [2],
     .reply [{ status := str "error", filename := str "b.pdf", detail := none }]]
    [{ id := 1, filename := str "a.pdf", status := .completed, error := none }] 0
    { id := 1, filename := str "a.pdf", status := .completed, error := none } rfl rfl
    (by
      intro e he
      simp only [List.mem_cons, List.mem_singleton] at he
      rcases he with rfl | rfl | he
      · simp [avoids]
      · intro r hr
        simp only [List.mem_singleton] at hr
        rw [hr]
        decide
      · exact absurd he (List.not_mem_nil _))
  exact h.1

/-- Every incoming file contributes exactly one error message or one
accepted file to the validation loop. -/
theorem processFilesGo_count (filesLen maxFiles maxSize : Nat) (accept : Str) :
    ∀ (incoming : List JFile) (errs : List ValidationMsg) (newFiles : List JFile),
      (processFilesGo filesLen maxFiles maxSize accept incoming errs newFiles).1.length +
        (processFilesGo filesLen maxFiles maxSize accept incoming errs newFiles).2.length =
      errs.length + newFiles.length + incoming.length := by
  intro incoming
  induction incoming with
  | nil =>
    intro errs newFiles
    rw [processFilesGo]
    simp
  | cons f rest ih =>
    intro errs newFiles
    rw [processFilesGo]
    cases hv : validateFile filesLen maxFiles maxSize accept newFiles.length f with
    | some m =>
      rw [ih (errs ++ [m]) newFiles]
      simp only [List.length_append, List.length_cons, List.length_nil]
      omega
    | none =>
      rw [ih errs (newFiles ++ [f])]
      simp only [List.length_append, List.length_cons, List.length_nil]
      omega

/-- C1 counterexample: a submission with one oversized file and one valid
sibling leaves the session file set empty, so the accepted sibling is not
added to the batch and never uploads, refuting the claim that accepted
files are unaffected by a sibling's rejection. -/
theorem validation_sibling_dropped_cex :
    processFiles [] 3 512000 (str "application/pdf")
      [{ name := str "a.pdf", size := 600000, type := str "application/pdf" },
       { name := str "b.pdf", size := 1000, type := str "application/pdf" }] =
      ([ValidationMsg.sizeMsg (str "a.pdf") 512000], []) := by
  rfl

/-- C1 amended: each violating file is excluded and contributes one
message to the submission's error list (one message or one accepted file
per incoming file); however validation is all-or-nothing per submission:
the accepted files are appended to the batch only when no message was
recorded, and on any violation the whole submission is discarded, so
accepted siblings are not uploaded. -/
theorem validation_all_or_nothing (files : List JFile) (maxFiles maxSize : Nat)
    (accept : Str) (incoming : List JFile) :
    ((processFilesGo files.length maxFiles maxSize accept incoming [] []).1.length +
      (processFilesGo files.length maxFiles maxSize accept incoming [] []).2.length =
      incoming.length) ∧
    ((processFilesGo files.length maxFiles maxSize accept incoming [] []).1 = [] →
      (processFiles files maxFiles maxSize accept incoming).2 =
        files ++ (processFilesGo files.length maxFiles maxSize accept incoming [] []).2) ∧
    (¬ (processFilesGo files.length maxFiles maxSize accept incoming [] []).1 = [] →
      (processFiles files maxFiles maxSize accept incoming).2 = files) := by
  refine ⟨?_, ?_, ?_⟩
  · have h := processFilesGo_count files.length maxFiles maxSize accept incoming [] []
    simpa using h
  · intro h
    unfold processFiles
    simp only [h, if_pos]
  · intro h
    unfold processFiles
    rw [if_neg h]

/-- Witness for C1 amended: a fully valid submission of one file is
appended to the batch. -/
theorem validation_all_or_nothing_witness :
    (processFiles [] 3 512000 (str "application/pdf")
      [{ name := str "b.pdf", size := 1000, type := str "application/pdf" }]).2 =
      [{ name := str "b.pdf", size := 1000, type := str "application/pdf" }] := by
  have h := (validation_all_or_nothing [] 3 512000 (str "application/pdf")
    [{ name := str "b.pdf", size := 1000, type := str "application/pdf" }]).2.1 rfl
  rw [h]
  rfl

/-- C2 counterexample: the text consisting of a dash, a space, two stars
and a colon contains both tier-one cues yet the parser returns zero
records, because no bold all-caps name can be extracted, refuting the
claim that tier one never returns zero records. -/
theorem tier1_zero_records_cex :
    hasSub (str "- **:") (str "- **") = true ∧
    hasSub (str "- **:") (str "**:") = true ∧
    parseLLMResponse (str "- **:") = [] := by
  refine ⟨rfl, rfl, rfl⟩

/-- C2 amended: for every text containing both tier-one cues the parser
returns at most one record, and it returns exactly one record precisely
when the indented parse extracts a nonempty name (the bold all-caps name
pattern matches); otherwise it returns zero records. -/
theorem tier1_at_most_one (t : Str)
    (h1 : hasSub t (str "- **") = true) (h2 : hasSub t (str "**:") = true) :
    (parseLLMResponse t).length ≤ 1 ∧
    ((parseLLMResponse t).length = 1 ↔ (parseIndentedFormat t).name.isEmpty = false) := by
  unfold parseLLMResponse
  rw [h1, h2]
  simp only [Bool.and_self, if_pos]
  cases hn : (parseIndentedFormat t).name.isEmpty with
  | true => simp [hn]
  | false => simp [hn]

/-- Witness for C2 amended: a well-formed indented blob yields exactly
one record. -/
theorem tier1_at_most_one_witness :
    (parseLLMResponse (str "- **AB**: x")).length = 1 :=
  (tier1_at_most_one (str "- **AB**: x") rfl rfl).2.mpr rfl

/-- C6: for every text that reaches tier two (it carries a bold marker
and not both tier-one cues, which holds in particular for every text with
at least two bold spans and no tier-one cue), the returned records are
exactly the sections with a nonempty extracted name, parsed in section
order, so their number equals the number of such sections and their order
matches the order of the sections in the input. -/
theorem tier2_records_spec (t : Str)
    (h1 : (hasSub t (str "- **") && hasSub t (str "**:")) = false)
    (h2 : hasSub t (str "**") = true) :
    parseLLMResponse t =
      ((splitSections t).filter
        (fun sec => !(parseCandidateSection sec).name.isEmpty)).map parseCandidateSection ∧
    (parseLLMResponse t).length =
      ((splitSections t).filter
        (fun sec => !(parseCandidateSection sec).name.isEmpty)).length := by
  have hmain : parseLLMResponse t =
      ((splitSections t).filter
        (fun sec => !(parseCandidateSection sec).name.isEmpty)).map parseCandidateSection := by
    unfold parseLLMResponse
    rw [h1, h2]
    simp only [Bool.and_self, if_pos, Bool.false_eq_true, if_neg, if_true]
    generalize splitSections t = l
    induction l with
    | nil => rfl
    | cons a l ih =>
      rw [List.filterMap_cons, List.filter_cons]
      cases hn : (parseCandidateSection a).name.isEmpty with
      | true =>
        cases ht : (trimJS a).isEmpty with
        | true => simpa [ht, hn] using ih
        | false => simpa [ht, hn] using ih
      | false =>
        have ht := pcs_name_trim hn
        simpa [ht, hn] using ih
  exact ⟨hmain, by rw [hmain, List.length_map]⟩

/-- Witness for C6: a single-section text produces that section's record. -/
theorem tier2_records_spec_witness :
    parseLLMResponse (str "**AB** x") = [parseCandidateSection (str "**AB** x")] := by
  have h := (tier2_records_spec (str "**AB** x") rfl rfl).1
  rw [h]
  rfl

/-- C7 counterexample: the two-character text of a single bold marker has
one occurrence of the marker, hence no bold span and no tier-one cue, so
it matches neither structural cue of the specification; yet the parser
returns zero records instead of one fallback record carrying the text,
because the code routes any text containing the marker to tier two. -/
theorem fallback_gap_cex :
    countSub (str "**") (str "**") = 1 ∧
    hasSub (str "**") (str "- **") = false ∧
    hasSub (str "**") (str "**:") = false ∧
    parseLLMResponse (str "**") = [] := by
  refine ⟨rfl, rfl, rfl, rfl⟩

/-- C7 amended: for every text that contains no bold marker at all (and
hence neither cue), the parser returns exactly one record and that
record's additional-info field is the original text verbatim; texts with
a bold marker but fewer than two bold spans are routed to tier two
instead, where the fallback guarantee does not hold. -/
theorem fallback_exact_spec (t : Str)
    (h1 : (hasSub t (str "- **") && hasSub t (str "**:")) = false)
    (h2 : hasSub t (str "**") = false) :
    parseLLMResponse t = [parseFallbackFormat t] ∧
    (parseFallbackFormat t).additionalInfo = t := by
  have hname : (parseFallbackFormat t).name.isEmpty = false := by
    simp only [parseFallbackFormat]
    cases hx : extractFbName t with
    | none => rfl
    | some g =>
      obtain ⟨c, rest, hg, hup⟩ := extractFbName_upper hx
      show (trimJS g).isEmpty = false
      rw [hg]
      exact trim_ne_of_mem (upper_not_ws hup) (List.mem_cons_self c rest)
  constructor
  · unfold parseLLMResponse
    rw [h1, h2]
    simp only [Bool.and_self, Bool.false_eq_true, if_neg, if_false, hname]
  · rfl

/-- Witness for C7 amended: plain text yields one fallback record with
the text kept verbatim. -/
theorem fallback_exact_spec_witness :
    parseLLMResponse (str "hello") = [parseFallbackFormat (str "hello")] ∧
    (parseFallbackFormat (str "hello")).additionalInfo = str "hello" :=
  fallback_exact_spec (str "hello") rfl rfl
